import Mathlib

/-
Verification of the forloop per-request network anonymization core
(crate `forloop-network`): a shallow embedding of the header synthesis
and sanitization functions, the traffic shaper, the TLS fingerprint
normalizer, circuit-identifier generation, URL parsing, and the
coordinating request pipeline, together with theorems settling the
specified properties.
-/

namespace Forloop

/-- ASCII lowercasing of a single character; Rust `str::to_lowercase`
restricted to the ASCII header names this layer manipulates. -/
def asciiLowerChar (c : Char) : Char :=
  if 'A' ≤ c ∧ c ≤ 'Z' then Char.ofNat (c.toNat + 32) else c

/-- ASCII lowercasing of a string. -/
def asciiLower (s : String) : String :=
  String.mk (s.data.map asciiLowerChar)

/-- An HTTP header: a (name, value) pair. -/
abbrev Header := String × String

/-- The `dangerous` array of `strip_dangerous_headers`
(src/network/src/headers.rs lines 131-145). -/
def dangerousHeaderNames : List String :=
  ["cookie", "authorization", "proxy-authorization", "x-forwarded-for",
   "x-real-ip", "x-client-ip", "forwarded", "via", "x-request-id",
   "x-correlation-id", "dnt", "referer", "origin"]

/-- Embedding of `strip_dangerous_headers` (headers.rs lines 130-151):
`retain` keeps exactly the headers whose lowercased name is not contained
in the dangerous array. -/
def strip_dangerous_headers (headers : List Header) : List Header :=
  headers.filter (fun h => !(dangerousHeaderNames.contains (asciiLower h.1)))

/-- The canonical `order` table of `normalize_header_order`
(headers.rs lines 157-171). -/
def headerOrderTable : List String :=
  ["host", "user-agent", "accept", "accept-language", "accept-encoding",
   "connection", "upgrade-insecure-requests", "sec-fetch-dest",
   "sec-fetch-mode", "sec-fetch-site", "sec-fetch-user",
   "content-type", "content-length"]

/-- Rust `usize::MAX` on the 64-bit targets the crate builds for. -/
def usizeMax : Nat := 2 ^ 64 - 1

/-- Sort key of `normalize_header_order` (headers.rs lines 177-178):
position of the lowercased name in the canonical table, `usize::MAX`
when absent. -/
def headerPos (name : String) : Nat :=
  (List.findIdx? (fun x => x == asciiLower name) headerOrderTable).getD usizeMax

/-- Comparator of `normalize_header_order` (headers.rs line 180,
`a_pos.cmp(&b_pos)` interpreted as a less-or-equal test on the keys). -/
def headerLe (a b : Header) : Bool :=
  headerPos a.1 ≤ headerPos b.1

/-- Embedding of `normalize_header_order` (headers.rs lines 155-182).
Rust `slice::sort_by` is a stable sort, and a stable sort under a total
key comparison is uniquely determined, so the stable `List.mergeSort`
produces the identical list. -/
def normalize_header_order (headers : List Header) : List Header :=
  headers.mergeSort headerLe

/-- The `matches!` arm set of `sanitize_response_headers`
(src/network/src/lib.rs lines 233-247), as a predicate on the lowercased
response-header name. -/
def isForbiddenResponseHeader : String → Bool
  | "set-cookie" => true
  | "set-cookie2" => true
  | "etag" => true
  | "last-modified" => true
  | "x-request-id" => true
  | "x-correlation-id" => true
  | "x-amzn-requestid" => true
  | "cf-ray" => true
  | "x-cache" => true
  | "x-served-by" => true
  | "x-timer" => true
  | "x-trace-id" => true
  | _ => false

/-- Embedding of `AnonymizedNetwork::sanitize_response_headers`
(lib.rs lines 227-250): keep exactly the headers whose lowercased name is
not in the fixed removal set. -/
def sanitize_response_headers (headers : List Header) : List Header :=
  headers.filter (fun h => !(isForbiddenResponseHeader (asciiLower h.1)))

/-- The removal set of `sanitize_response_headers`, listed as the names
the specification enumerates. -/
def forbiddenResponseNames : List String :=
  ["set-cookie", "set-cookie2", "etag", "last-modified", "x-request-id",
   "x-correlation-id", "x-amzn-requestid", "cf-ray", "x-cache",
   "x-served-by", "x-timer", "x-trace-id"]

/-- The fixed `BUCKETS` sequence of `normalize_size`
(src/network/src/traffic_shaper.rs line 132). -/
def sizeBuckets : List Nat := [512, 1024, 2048, 4096, 8192, 16384, 32768, 65536]

/-- Embedding of `normalize_size` (traffic_shaper.rs lines 130-142): return
the first bucket that is at least `size`; past the largest bucket round up
to the next multiple of 64 KiB.  `size` is a `usize`, so the round-up
addition `size + 65535` is taken modulo 2^64. -/
def normalize_size (size : Nat) : Nat :=
  match sizeBuckets.find? (fun b => size ≤ b) with
  | some bucket => bucket
  | none => (size + 65535) % 2 ^ 64 / 65536 * 65536

/-- Rust `rng.gen_range(lo..=hi)` observed at a draw `rand`: some value in
the inclusive range, `none` modelling the panic on an empty range. -/
def gen_range (lo hi rand : Nat) : Option Nat :=
  if lo ≤ hi then some (lo + rand % (hi - lo + 1)) else none

/-- Embedding of `TrafficShaper::pad_request` (traffic_shaper.rs lines
34-56): a padding size is sampled from the configured range and the body is
copied; for non-empty bodies only a trace log is emitted, so no padding
byte is ever appended to the returned body.  `none` models the `gen_range`
panic on an empty padding range. -/
def pad_request (min_padding max_padding rand : Nat) (body : List Nat) :
    Option (List Nat) :=
  match gen_range min_padding max_padding rand with
  | some _padding_size => some body
  | none => none

/-- The error taxonomy of the network layer (lib.rs lines 87-120). -/
inductive NetworkError where
  | TorConnectionFailed (msg : String)
  | CircuitCreationFailed (msg : String)
  | RequestFailed (msg : String)
  | Timeout
  | TlsError (msg : String)
  | DnsError (msg : String)
  | InvalidUrl (msg : String)
  | ProtocolNotSupported (msg : String)
deriving DecidableEq

/-- TLS protocol versions (src/network/src/tls_fingerprint.rs lines 27-34). -/
inductive TlsVersion where
  | Tls12
  | Tls13
deriving DecidableEq

/-- Numeric reading of a TLS version, for comparing minimum and maximum. -/
def TlsVersion.toNat : TlsVersion → Nat
  | .Tls12 => 12
  | .Tls13 => 13

/-- TLS configuration record (tls_fingerprint.rs lines 8-25); cipher-suite
and similar identifiers are `u16` values, modelled as `Nat`. -/
structure TlsConfig where
  cipher_suites : List Nat
  extensions : List Nat
  supported_groups : List Nat
  signature_algorithms : List Nat
  alpn_protocols : List String
  min_version : TlsVersion
  max_version : TlsVersion
deriving DecidableEq

/-- The constant profile of `tor_browser_config`
(tls_fingerprint.rs lines 50-119). -/
def tor_browser_config : TlsConfig :=
  { cipher_suites :=
      [0x1301, 0x1303, 0x1302, 0xc02b, 0xc02f, 0xc02c, 0xc030, 0xcca9,
       0xcca8, 0xc013, 0xc014, 0x009c, 0x009d, 0x002f, 0x0035],
    extensions :=
      [0x0000, 0x0017, 0xff01, 0x000a, 0x000b, 0x0023, 0x0010, 0x0005,
       0x0022, 0x0033, 0x002b, 0x000d, 0x001c, 0x001b, 0x0029],
    supported_groups := [0x001d, 0x0017, 0x0018, 0x0019, 0x0100, 0x0101],
    signature_algorithms :=
      [0x0403, 0x0503, 0x0603, 0x0804, 0x0805, 0x0806, 0x0401, 0x0501,
       0x0601],
    alpn_protocols := ["h2", "http/1.1"],
    min_version := TlsVersion.Tls12,
    max_version := TlsVersion.Tls13 }

/-- The normalizer holds the constant profile (tls_fingerprint.rs
lines 36-47). -/
structure TlsFingerprintNormalizer where
  config : TlsConfig

/-- Embedding of `TlsFingerprintNormalizer::new`. -/
def TlsFingerprintNormalizer.new : TlsFingerprintNormalizer :=
  { config := tor_browser_config }

/-- Embedding of `TlsFingerprintNormalizer::create_config`
(tls_fingerprint.rs lines 122-124): an infallible clone of the stored
constant profile. -/
def TlsFingerprintNormalizer.create_config (s : TlsFingerprintNormalizer) :
    Except NetworkError TlsConfig :=
  Except.ok s.config

/-- Lowercase hexadecimal digit character for a value below 16, as Rust
`{:x}` formatting produces. -/
def hexDigitChar (d : Nat) : Char :=
  if d < 10 then Char.ofNat (48 + d) else Char.ofNat (87 + d)

/-- Hexadecimal digits of `n`, most significant first, computed with a fuel
argument so that the recursion is structural; `toHexFuel (n + 1) n` is
total for every `n`. -/
def toHexFuel : Nat → Nat → List Char
  | 0, _ => []
  | fuel + 1, n =>
    if n < 16 then [hexDigitChar n]
    else toHexFuel fuel (n / 16) ++ [hexDigitChar (n % 16)]

/-- Hexadecimal digit string of `n` — Rust `{:x}`. -/
def toHex (n : Nat) : List Char := toHexFuel (n + 1) n

/-- Zero padding to width 16 — Rust `{:016x}` (never truncates, so values
wider than 16 digits keep all their digits). -/
def pad16 (l : List Char) : List Char :=
  List.replicate (16 - l.length) '0' ++ l

/-- Embedding of `generate_circuit_id`
(src/network/src/tor_integration.rs lines 114-124) at an observed clock
value of `nanos` nanoseconds since the epoch. -/
def generate_circuit_id (nanos : Nat) : String :=
  "circuit_" ++ String.mk (pad16 (toHex nanos))

/-- Embedding of `CircuitManager::create_new_circuit`
(src/network/src/circuit.rs lines 30-44) at an observed clock value: the
controller's `new_circuit` (tor_integration.rs lines 82-90) always returns
`generate_circuit_id`, which is then pushed onto the tracked list. -/
def create_new_circuit (nanos : Nat) (activeCircuits : List String) :
    String × List String :=
  let circuit_id := generate_circuit_id nanos
  (circuit_id, activeCircuits ++ [circuit_id])

/-- Circuit identifiers produced by N pipeline invocations whose observed
clock values are `ts`. -/
def circuitIdsAt (ts : List Nat) : List String :=
  ts.map (fun t => (create_new_circuit t []).1)

/-- Numeric value of a lowercase hexadecimal digit character. -/
def hexVal (c : Char) : Nat :=
  if 97 ≤ c.toNat then c.toNat - 87 else c.toNat - 48

/-- Accumulating hexadecimal string reader, inverse to `toHex`. -/
def readHexAux : List Char → Nat → Nat
  | [], acc => acc
  | c :: cs, acc => readHexAux cs (16 * acc + hexVal c)

/-- Value of a hexadecimal digit string. -/
def readHex (l : List Char) : Nat := readHexAux l 0

/-- Rust `str::starts_with` on strings, computed on the character lists. -/
def starts_with (s p : String) : Bool :=
  s.data.take p.data.length == p.data

/-- Index of the last occurrence of `c` in `l` — Rust `str::rfind`. -/
def findLastIdx (c : Char) (l : List Char) : Option Nat :=
  match List.findIdx? (fun x => x == c) l.reverse with
  | some i => some (l.length - 1 - i)
  | none => none

/-- Parsed URL components (src/network/src/circuit.rs lines 172-177). -/
structure ParsedUrl where
  host : String
  port : Nat
  path : String
deriving DecidableEq

/-- The scheme-free remainder of the URL (circuit.rs lines 182-184,
`strip_prefix("https://")`); meaningful when the URL starts with the
8-character scheme. -/
def without_scheme (url : String) : List Char :=
  url.data.drop 8

/-- Splitting at the first slash (circuit.rs lines 187-190): host-and-port
part and path, the path defaulting to "/". -/
def split_host_path (ws : List Char) : List Char × List Char :=
  match List.findIdx? (fun c => c == '/') ws with
  | some idx => (ws.take idx, ws.drop idx)
  | none => (ws, ['/'])

/-- Splitting at the last colon (circuit.rs lines 193-201): host and the
optional port substring. -/
def split_host_port (hp : List Char) : List Char × Option (List Char) :=
  match findLastIdx ':' hp with
  | some idx => (hp.take idx, some (hp.drop (idx + 1)))
  | none => (hp, none)

/-- Rust `u16::from_str`: an optional leading plus sign, then one or more
ASCII digits, value at most 65535. -/
def parse_u16 (l : List Char) : Option Nat :=
  let digits := match l with
    | '+' :: rest => rest
    | _ => l
  if digits.isEmpty then none
  else if digits.all (fun c => c.isDigit) then
    let v := digits.foldl (fun a c => 10 * a + (c.toNat - 48)) 0
    if v < 65536 then some v else none
  else none

/-- Embedding of `parse_url` (circuit.rs lines 180-209); the locals
`host_port`, `path`, `host` and `port_str` of the source are written as
the projections of `split_host_path` and `split_host_port`. -/
def parse_url (url : String) : Except NetworkError ParsedUrl :=
  if starts_with url "https://" then
    match (split_host_port (split_host_path (without_scheme url)).1).2 with
    | some port_str =>
      match parse_u16 port_str with
      | some port =>
        Except.ok
          { host := String.mk
              (split_host_port (split_host_path (without_scheme url)).1).1,
            port := port,
            path := String.mk (split_host_path (without_scheme url)).2 }
      | none => Except.error (NetworkError.InvalidUrl "Invalid port")
    | none =>
      Except.ok
        { host := String.mk
            (split_host_port (split_host_path (without_scheme url)).1).1,
          port := 443,
          path := String.mk (split_host_path (without_scheme url)).2 }
  else Except.error (NetworkError.InvalidUrl "Not HTTPS")

/-- The User-Agent anonymity set `USER_AGENTS`
(src/network/src/headers.rs lines 14-21). -/
def USER_AGENTS : List String :=
  ["Mozilla/5.0 (Windows NT 10.0; rv:115.0) Gecko/20100101 Firefox/115.0",
   "Mozilla/5.0 (X11; Linux x86_64; rv:115.0) Gecko/20100101 Firefox/115.0",
   "Mozilla/5.0 (Macintosh; Intel Mac OS X 10.15; rv:115.0) Gecko/20100101 Firefox/115.0"]

/-- The `ACCEPT_LANGUAGES` constant (headers.rs lines 24-26). -/
def ACCEPT_LANGUAGES : List String := ["en-US,en;q=0.5"]

/-- The `ACCEPT_HTML` constant (headers.rs line 29). -/
def ACCEPT_HTML : String :=
  "text/html,application/xhtml+xml,application/xml;q=0.9,image/avif,image/webp,*/*;q=0.8"

/-- The `ACCEPT_ENCODING` constant (headers.rs line 35). -/
def ACCEPT_ENCODING : String := "gzip, deflate, br"

/-- The synthetic header value object (headers.rs lines 108-119). -/
structure SyntheticHeaders where
  user_agent : String
  accept : String
  accept_language : String
  accept_encoding : String
deriving DecidableEq

/-- Embedding of `HeaderSynthesizer::generate` (headers.rs lines 52-70) at
an observed RNG draw: `choose` selects the User-Agent at index
`uaChoice % 3`; the other fields are the fixed constants. -/
def generate (uaChoice : Nat) : SyntheticHeaders :=
  { user_agent := USER_AGENTS.getD (uaChoice % USER_AGENTS.length) "",
    accept := ACCEPT_HTML,
    accept_language := ACCEPT_LANGUAGES.getD 0 "",
    accept_encoding := ACCEPT_ENCODING }

/-- Embedding of `HeaderSynthesizer::to_header_list`
(headers.rs lines 80-99). -/
def to_header_list (h : SyntheticHeaders) : List Header :=
  [("User-Agent", h.user_agent),
   ("Accept", h.accept),
   ("Accept-Language", h.accept_language),
   ("Accept-Encoding", h.accept_encoding),
   ("Connection", "keep-alive"),
   ("Upgrade-Insecure-Requests", "1"),
   ("Sec-Fetch-Dest", "document"),
   ("Sec-Fetch-Mode", "navigate"),
   ("Sec-Fetch-Site", "none"),
   ("Sec-Fetch-User", "?1")]

/-- Network configuration (lib.rs lines 38-56); the request timeout is
carried in seconds. -/
structure NetworkConfig where
  min_padding_bytes : Nat
  max_padding_bytes : Nat
  min_jitter_ms : Nat
  max_jitter_ms : Nat
  tor_socks_port : Nat
  tor_control_port : Nat
  request_timeout : Nat
  new_circuit_per_request : Bool
deriving DecidableEq

/-- The compiled-in defaults (lib.rs lines 58-71). -/
def NetworkConfig.default : NetworkConfig :=
  { min_padding_bytes := 256, max_padding_bytes := 2048,
    min_jitter_ms := 0, max_jitter_ms := 50,
    tor_socks_port := 9150, tor_control_port := 9151,
    request_timeout := 60, new_circuit_per_request := true }

/-- Raw HTTP response (circuit.rs lines 162-170); body bytes as `Nat`. -/
structure RawResponse where
  status : Nat
  headers : List Header
  body : List Nat
deriving DecidableEq

/-- The placeholder response of `Circuit::execute_request` (circuit.rs
lines 142-150), the only success value the source's transport step can
produce. -/
def placeholder_response : RawResponse :=
  { status := 200, headers := [("content-type", "text/html")], body := [] }

/-- Result record of a successful request (lib.rs lines 74-84). -/
structure NetworkResponse where
  status : Nat
  headers : List Header
  body : List Nat
  circuit_id : String
deriving DecidableEq

/-- Operations the request pipeline performs, recorded as a trace in
source order.  The three header-sanitization entries (`toOrderedList`,
`stripDangerous`, `normalizeOrder`) exist so that their presence or
absence on the request path can be stated. -/
inductive Step where
  | jitter
  | newCircuit (id : String)
  | generateHeaders
  | toOrderedList
  | stripDangerous
  | normalizeOrder
  | padBody
  | tlsProfile
  | transportCall (headers : SyntheticHeaders)
  | sanitizeResponse
deriving DecidableEq

/-- State shared across one `AnonymizedNetwork::request` call: the tracked
circuit list of the `CircuitManager` and the recorded operation trace. -/
structure NetState where
  activeCircuits : List String
  trace : List Step
deriving DecidableEq

/-- The state before any request. -/
def initState : NetState := { activeCircuits := [], trace := [] }

/-- One request's nondeterministic observations: the clock value read by
`generate_circuit_id`, the RNG draws of `generate` and `pad_request`, and
whether the transport step hits the timeout. -/
structure Env where
  nanos : Nat
  uaChoice : Nat
  padRand : Nat
  timedOut : Bool
deriving DecidableEq

/-- The part of the URL before the first colon — `url.split(':').next()`
(lib.rs line 181); `split` always yields a first piece, so the source's
`unwrap_or("unknown")` never fires. -/
def scheme_of (url : String) : String :=
  String.mk (url.data.takeWhile (fun c => !(c == ':')))

/-- Embedding of `Circuit::request` (circuit.rs lines 76-115): parse the
URL, then run `execute_request` within the timeout.  `execute_request`
(circuit.rs lines 118-151) is placeholder code whose only outcomes are
the timeout error and `placeholder_response`.  The `_headers` parameter
records what the caller passes: lib.rs line 205 passes the
`SyntheticHeaders` value itself (where circuit.rs line 80 declares
`&[(String, String)]`), so the parameter is typed accordingly here. -/
def Circuit.request (_method url : String) (_headers : SyntheticHeaders)
    (_body : Option (List Nat)) (timedOut : Bool) :
    Except NetworkError RawResponse :=
  match parse_url url with
  | Except.error e => Except.error e
  | Except.ok _parsed =>
    if timedOut then Except.error NetworkError.Timeout
    else Except.ok placeholder_response

/-- The body-padding step of the pipeline (lib.rs line 195):
`body.map(|b| pad_request(b))`; the outer `none` models the `pad_request`
panic on an empty padding range. -/
def pad_body (cfg : NetworkConfig) (rand : Nat) :
    Option (List Nat) → Option (Option (List Nat))
  | Option.none => Option.some Option.none
  | Option.some b =>
    match pad_request cfg.min_padding_bytes cfg.max_padding_bytes rand b with
    | Option.some pb => Option.some (Option.some pb)
    | Option.none => Option.none

/-- The trace entry contributed by the padding step: present exactly when
a body is present. -/
def pad_trace : Option (List Nat) → List Step
  | Option.some _ => [Step.padBody]
  | Option.none => []

deriving instance DecidableEq for Except

/-- Embedding of `AnonymizedNetwork::request` (lib.rs lines 172-224).
The non-https check returns `ProtocolNotSupported` before any other work.
Otherwise, in source order: `apply_jitter`, `create_new_circuit` (the
controller always hands back `generate_circuit_id`, pushed to the tracked
list), `generate`, the body padding, `create_config` (infallible, returns
the constant profile), the transport call, response sanitization, and the
closing `apply_jitter`.  The outgoing-header value handed to
`circuit.request` is the raw `generate` output: `to_header_list`,
`strip_dangerous_headers` and `normalize_header_order` are not invoked
anywhere in this function (lib.rs lines 191-210), so no corresponding
step is ever recorded. -/
def AnonymizedNetwork.request (cfg : NetworkConfig) (env : Env)
    (st : NetState) (method url : String) (body : Option (List Nat)) :
    Option (Except NetworkError NetworkResponse × NetState) :=
  if starts_with url "https://" then
    match pad_body cfg env.padRand body with
    | Option.none => Option.none
    | Option.some padded_body =>
      match Circuit.request method url (generate env.uaChoice) padded_body
          env.timedOut with
      | Except.error e =>
        Option.some (Except.error e,
          { activeCircuits :=
              st.activeCircuits ++ [generate_circuit_id env.nanos],
            trace := st.trace ++
              [Step.jitter, Step.newCircuit (generate_circuit_id env.nanos),
               Step.generateHeaders] ++ pad_trace body ++
              [Step.tlsProfile,
               Step.transportCall (generate env.uaChoice)] })
      | Except.ok resp =>
        Option.some (Except.ok
          { status := resp.status,
            headers := sanitize_response_headers resp.headers,
            body := resp.body,
            circuit_id := generate_circuit_id env.nanos },
          { activeCircuits :=
              st.activeCircuits ++ [generate_circuit_id env.nanos],
            trace := st.trace ++
              [Step.jitter, Step.newCircuit (generate_circuit_id env.nanos),
               Step.generateHeaders] ++ pad_trace body ++
              [Step.tlsProfile,
               Step.transportCall (generate env.uaChoice),
               Step.sanitizeResponse, Step.jitter] })
  else
    Option.some (Except.error
      (NetworkError.ProtocolNotSupported (scheme_of url)), st)

/-- The outcome of the concrete request used as the C1 witness. -/
def c1RequestOut : Except NetworkError NetworkResponse × NetState :=
  (Except.ok
    { status := 200,
      headers := [("content-type", "text/html")],
      body := [],
      circuit_id := "circuit_0000000000000000" },
   { activeCircuits := ["circuit_0000000000000000"],
     trace :=
       [Step.jitter, Step.newCircuit "circuit_0000000000000000",
        Step.generateHeaders, Step.tlsProfile,
        Step.transportCall (generate 0), Step.sanitizeResponse,
        Step.jitter] })

theorem isForbiddenResponseHeader_iff (s : String) :
    isForbiddenResponseHeader s = true ↔ s ∈ forbiddenResponseNames := by
  unfold isForbiddenResponseHeader
  split <;> simp_all [forbiddenResponseNames]

theorem contains_eq_decide_mem (l : List String) (s : String) :
    l.contains s = decide (s ∈ l) := by
  by_cases h : s ∈ l
  · simp [h, List.elem_iff]
  · simp [h, List.elem_iff]

/-- C5: `strip_dangerous_headers` returns the input list with exactly the
case-insensitive matches of the forbidden set removed; the survivors keep
their relative order (the output is a sublist of the input), the output
contains no match against the forbidden set, and the function is
idempotent. -/
theorem strip_dangerous_headers_spec (headers : List Header) :
    strip_dangerous_headers headers =
      headers.filter (fun h => decide (asciiLower h.1 ∉ dangerousHeaderNames)) ∧
    (strip_dangerous_headers headers).Sublist headers ∧
    (∀ h ∈ strip_dangerous_headers headers,
      asciiLower h.1 ∉ dangerousHeaderNames) ∧
    strip_dangerous_headers (strip_dangerous_headers headers) =
      strip_dangerous_headers headers := by
  have hpred : ∀ h : Header,
      (!(dangerousHeaderNames.contains (asciiLower h.1))) =
        decide (asciiLower h.1 ∉ dangerousHeaderNames) := by
    intro h
    rw [contains_eq_decide_mem]
    by_cases hm : asciiLower h.1 ∈ dangerousHeaderNames <;> simp [hm]
  refine ⟨?_, ?_, ?_, ?_⟩
  · unfold strip_dangerous_headers
    exact List.filter_congr (fun h _ => hpred h)
  · exact List.filter_sublist headers
  · intro h hmem
    unfold strip_dangerous_headers at hmem
    have hb := (List.mem_filter.mp hmem).2
    rw [hpred] at hb
    exact of_decide_eq_true hb
  · have hall : ∀ a ∈ strip_dangerous_headers headers,
        (!(dangerousHeaderNames.contains (asciiLower a.1))) = true := by
      intro a ha
      unfold strip_dangerous_headers at ha
      exact (List.mem_filter.mp ha).2
    show List.filter _ (strip_dangerous_headers headers) =
      strip_dangerous_headers headers
    exact List.filter_eq_self.mpr hall

theorem isForbiddenResponseHeader_false_iff (s : String) :
    isForbiddenResponseHeader s = false ↔ s ∉ forbiddenResponseNames := by
  constructor
  · intro hf hm
    rw [(isForbiddenResponseHeader_iff s).mpr hm] at hf
    cases hf
  · intro hm
    cases hb : isForbiddenResponseHeader s
    · rfl
    · exact absurd ((isForbiddenResponseHeader_iff s).mp hb) hm

/-- C4: `sanitize_response_headers` keeps a response header exactly when its
name does not case-insensitively match the fixed removal set, keeps the
survivors in order (the output is a sublist of the input), and on the spec
scenario list it keeps exactly the content-type entry. -/
theorem sanitize_response_headers_spec (headers : List Header) :
    (∀ h, h ∈ sanitize_response_headers headers ↔
      h ∈ headers ∧ asciiLower h.1 ∉ forbiddenResponseNames) ∧
    (sanitize_response_headers headers).Sublist headers ∧
    sanitize_response_headers
        [("set-cookie", "a=b"), ("etag", "\"x\""),
         ("content-type", "text/html")] =
      [("content-type", "text/html")] := by
  refine ⟨?_, List.filter_sublist headers, by decide⟩
  intro h
  unfold sanitize_response_headers
  rw [List.mem_filter, Bool.not_eq_true', isForbiddenResponseHeader_false_iff]

theorem headerLe_trans (a b c : Header) (hab : headerLe a b = true)
    (hbc : headerLe b c = true) : headerLe a c = true := by
  unfold headerLe at *
  rw [decide_eq_true_eq] at *
  exact le_trans hab hbc

theorem headerLe_total (a b : Header) :
    (headerLe a b || headerLe b a) = true := by
  unfold headerLe
  rw [Bool.or_eq_true, decide_eq_true_eq, decide_eq_true_eq]
  exact Nat.le_total _ _

theorem headerPos_lt_of_mem {name : String}
    (h : asciiLower name ∈ headerOrderTable) :
    headerPos name < headerOrderTable.length := by
  have hex : ∃ x ∈ headerOrderTable, (x == asciiLower name) = true :=
    ⟨asciiLower name, h, by simp⟩
  unfold headerPos
  rw [List.findIdx?_eq_some_of_exists hex]
  exact List.findIdx_lt_length_of_exists hex

theorem headerPos_eq_max_of_not_mem {name : String}
    (h : asciiLower name ∉ headerOrderTable) : headerPos name = usizeMax := by
  unfold headerPos
  have hnone : List.findIdx? (fun x => x == asciiLower name)
      headerOrderTable = none := by
    rw [List.findIdx?_eq_none_iff]
    intro x hx
    rw [beq_eq_false_iff_ne]
    rintro rfl
    exact h hx
  rw [hnone]
  rfl

theorem mem_of_headerPos_ne_max {name : String}
    (h : headerPos name ≠ usizeMax) : asciiLower name ∈ headerOrderTable := by
  by_contra hn
  exact h (headerPos_eq_max_of_not_mem hn)

/-- C6: `normalize_header_order` permutes the input into an order sorted by
the canonical position table; any header present in the table comes before
any header absent from it; the absent headers keep their relative input
order among themselves (stability); and the function is idempotent. -/
theorem normalize_header_order_spec (headers : List Header) :
    (normalize_header_order headers).Perm headers ∧
    (normalize_header_order headers).Pairwise
      (fun a b => headerPos a.1 ≤ headerPos b.1) ∧
    (normalize_header_order headers).Pairwise
      (fun a b => asciiLower b.1 ∈ headerOrderTable →
        asciiLower a.1 ∈ headerOrderTable) ∧
    (normalize_header_order headers).filter
        (fun h => decide (asciiLower h.1 ∉ headerOrderTable)) =
      headers.filter (fun h => decide (asciiLower h.1 ∉ headerOrderTable)) ∧
    normalize_header_order (normalize_header_order headers) =
      normalize_header_order headers := by
  have hsorted : (headers.mergeSort headerLe).Pairwise
      (fun a b => headerLe a b = true) :=
    List.sorted_mergeSort headerLe_trans headerLe_total headers
  have hkey : (normalize_header_order headers).Pairwise
      (fun a b => headerPos a.1 ≤ headerPos b.1) := by
    unfold normalize_header_order
    exact hsorted.imp (fun hab => by
      have := hab
      unfold headerLe at this
      exact of_decide_eq_true this)
  refine ⟨List.mergeSort_perm headers headerLe, hkey, ?_, ?_, ?_⟩
  · refine hkey.imp ?_
    intro a b hab hbmem
    apply mem_of_headerPos_ne_max
    intro hmax
    have hb : headerPos b.1 < headerOrderTable.length := headerPos_lt_of_mem hbmem
    have hlen : headerOrderTable.length ≤ usizeMax := by
      unfold headerOrderTable usizeMax
      norm_num
    rw [hmax] at hab
    omega
  · set p : Header → Bool :=
      fun h => decide (asciiLower h.1 ∉ headerOrderTable) with hp
    have hpmax : ∀ h : Header, p h = true → headerPos h.1 = usizeMax := by
      intro h hh
      rw [hp] at hh
      exact headerPos_eq_max_of_not_mem (of_decide_eq_true hh)
    have hcsub : (headers.filter p).Sublist headers := List.filter_sublist headers
    have hcpw : (headers.filter p).Pairwise (fun a b => headerLe a b = true) := by
      apply List.pairwise_of_forall_mem_list
      intro a ha b hb
      have hpa := hpmax a (List.mem_filter.mp ha).2
      have hpb := hpmax b (List.mem_filter.mp hb).2
      unfold headerLe
      rw [hpa, hpb]
      simp
    have hstab : (headers.filter p).Sublist (headers.mergeSort headerLe) :=
      List.sublist_mergeSort headerLe_trans headerLe_total hcpw hcsub
    have hperm : ((headers.mergeSort headerLe).filter p).Perm
        (headers.filter p) :=
      (List.mergeSort_perm headers headerLe).filter p
    have hfix : (headers.filter p).filter p = headers.filter p :=
      List.filter_eq_self.mpr (fun a ha => (List.mem_filter.mp ha).2)
    have hsub2 : (headers.filter p).Sublist
        ((headers.mergeSort headerLe).filter p) := by
      have := hstab.filter p
      rwa [hfix] at this
    have hlen : (headers.filter p).length =
        ((headers.mergeSort headerLe).filter p).length := hperm.length_eq.symm
    have := hsub2.eq_of_length hlen
    unfold normalize_header_order
    exact this.symm
  · unfold normalize_header_order
    exact List.mergeSort_of_sorted hsorted

/-- C9: for every request body (and every RNG draw), `pad_request` returns
the body byte-for-byte unchanged: the padding length is computed from the
configured range but never appended to the application-visible payload. -/
theorem pad_request_preserves_body (min_padding max_padding rand : Nat)
    (body : List Nat) (h : min_padding ≤ max_padding) :
    pad_request min_padding max_padding rand body = some body := by
  unfold pad_request gen_range
  rw [if_pos h]

/-- Witness for C9 at the compiled-in padding range 256..=2048. -/
theorem pad_request_preserves_body_witness :
    (256 : Nat) ≤ 2048 ∧ pad_request 256 2048 7 [1, 2, 3] = some [1, 2, 3] :=
  ⟨by decide, pad_request_preserves_body 256 2048 7 [1, 2, 3] (by decide)⟩

theorem normalize_size_eval (n : Nat) :
    normalize_size n =
      if n ≤ 512 then 512
      else if n ≤ 1024 then 1024
      else if n ≤ 2048 then 2048
      else if n ≤ 4096 then 4096
      else if n ≤ 8192 then 8192
      else if n ≤ 16384 then 16384
      else if n ≤ 32768 then 32768
      else if n ≤ 65536 then 65536
      else (n + 65535) % 2 ^ 64 / 65536 * 65536 := by
  unfold normalize_size sizeBuckets
  by_cases h1 : n ≤ 512
  · rw [List.find?_cons_of_pos _ (by simpa using h1), if_pos h1]
  rw [List.find?_cons_of_neg _ (by simpa using h1), if_neg h1]
  by_cases h2 : n ≤ 1024
  · rw [List.find?_cons_of_pos _ (by simpa using h2), if_pos h2]
  rw [List.find?_cons_of_neg _ (by simpa using h2), if_neg h2]
  by_cases h3 : n ≤ 2048
  · rw [List.find?_cons_of_pos _ (by simpa using h3), if_pos h3]
  rw [List.find?_cons_of_neg _ (by simpa using h3), if_neg h3]
  by_cases h4 : n ≤ 4096
  · rw [List.find?_cons_of_pos _ (by simpa using h4), if_pos h4]
  rw [List.find?_cons_of_neg _ (by simpa using h4), if_neg h4]
  by_cases h5 : n ≤ 8192
  · rw [List.find?_cons_of_pos _ (by simpa using h5), if_pos h5]
  rw [List.find?_cons_of_neg _ (by simpa using h5), if_neg h5]
  by_cases h6 : n ≤ 16384
  · rw [List.find?_cons_of_pos _ (by simpa using h6), if_pos h6]
  rw [List.find?_cons_of_neg _ (by simpa using h6), if_neg h6]
  by_cases h7 : n ≤ 32768
  · rw [List.find?_cons_of_pos _ (by simpa using h7), if_pos h7]
  rw [List.find?_cons_of_neg _ (by simpa using h7), if_neg h7]
  by_cases h8 : n ≤ 65536
  · rw [List.find?_cons_of_pos _ (by simpa using h8), if_pos h8]
  rw [List.find?_cons_of_neg _ (by simpa using h8), if_neg h8]
  rfl

/-- C7 counterexample: at the largest `usize` value the round-up addition
wraps, so the result is 0, which is not ≥ the input — the claim's
`normalize_size(n) ≥ n` fails inside the declared domain of all n ≥ 0. -/
theorem normalize_size_claim_counterexample :
    normalize_size 18446744073709551615 = 0 ∧
    ¬ (18446744073709551615 ≤ normalize_size 18446744073709551615) := by
  have h : normalize_size 18446744073709551615 = 0 := by
    rw [normalize_size_eval]
    norm_num
  exact ⟨h, by rw [h]; omega⟩

/-- C7 (amended): whenever the round-up addition does not overflow the
64-bit size (n + 65535 < 2^64), `normalize_size n` is at least n, is
idempotent, is the smallest bucket ≥ n whenever some bucket is ≥ n, and
past the largest bucket is the smallest multiple of 65536 that is ≥ n. -/
theorem normalize_size_spec (n : Nat) (h : n + 65535 < 2 ^ 64) :
    n ≤ normalize_size n ∧
    normalize_size (normalize_size n) = normalize_size n ∧
    (∀ b ∈ sizeBuckets, n ≤ b →
      normalize_size n ∈ sizeBuckets ∧ normalize_size n ≤ b) ∧
    (65536 < n →
      normalize_size n % 65536 = 0 ∧ normalize_size n < n + 65536) := by
  have he := normalize_size_eval n
  by_cases h1 : n ≤ 512
  · have hn : normalize_size n = 512 := by rw [he]; simp [h1]
    refine ⟨by omega, by rw [hn]; decide, ?_, fun hc => absurd hc (by omega)⟩
    intro b hb hnb
    rw [hn]
    fin_cases hb <;> exact ⟨by decide, by omega⟩
  by_cases h2 : n ≤ 1024
  · have hn : normalize_size n = 1024 := by rw [he]; simp [h1, h2]
    refine ⟨by omega, by rw [hn]; decide, ?_, fun hc => absurd hc (by omega)⟩
    intro b hb hnb
    rw [hn]
    fin_cases hb <;> exact ⟨by decide, by omega⟩
  by_cases h3 : n ≤ 2048
  · have hn : normalize_size n = 2048 := by rw [he]; simp [h1, h2, h3]
    refine ⟨by omega, by rw [hn]; decide, ?_, fun hc => absurd hc (by omega)⟩
    intro b hb hnb
    rw [hn]
    fin_cases hb <;> exact ⟨by decide, by omega⟩
  by_cases h4 : n ≤ 4096
  · have hn : normalize_size n = 4096 := by rw [he]; simp [h1, h2, h3, h4]
    refine ⟨by omega, by rw [hn]; decide, ?_, fun hc => absurd hc (by omega)⟩
    intro b hb hnb
    rw [hn]
    fin_cases hb <;> exact ⟨by decide, by omega⟩
  by_cases h5 : n ≤ 8192
  · have hn : normalize_size n = 8192 := by rw [he]; simp [h1, h2, h3, h4, h5]
    refine ⟨by omega, by rw [hn]; decide, ?_, fun hc => absurd hc (by omega)⟩
    intro b hb hnb
    rw [hn]
    fin_cases hb <;> exact ⟨by decide, by omega⟩
  by_cases h6 : n ≤ 16384
  · have hn : normalize_size n = 16384 := by
      rw [he]; simp [h1, h2, h3, h4, h5, h6]
    refine ⟨by omega, by rw [hn]; decide, ?_, fun hc => absurd hc (by omega)⟩
    intro b hb hnb
    rw [hn]
    fin_cases hb <;> exact ⟨by decide, by omega⟩
  by_cases h7 : n ≤ 32768
  · have hn : normalize_size n = 32768 := by
      rw [he]; simp [h1, h2, h3, h4, h5, h6, h7]
    refine ⟨by omega, by rw [hn]; decide, ?_, fun hc => absurd hc (by omega)⟩
    intro b hb hnb
    rw [hn]
    fin_cases hb <;> exact ⟨by decide, by omega⟩
  by_cases h8 : n ≤ 65536
  · have hn : normalize_size n = 65536 := by
      rw [he]; simp [h1, h2, h3, h4, h5, h6, h7, h8]
    refine ⟨by omega, by rw [hn]; decide, ?_, fun hc => absurd hc (by omega)⟩
    intro b hb hnb
    rw [hn]
    fin_cases hb <;> exact ⟨by decide, by omega⟩
  · have hn : normalize_size n = (n + 65535) % 2 ^ 64 / 65536 * 65536 := by
      rw [he]; simp [h1, h2, h3, h4, h5, h6, h7, h8]
    rw [hn, Nat.mod_eq_of_lt h]
    refine ⟨by omega, ?_, ?_, fun _ => ⟨by omega, by omega⟩⟩
    · rw [normalize_size_eval]
      have hbig : 65536 < (n + 65535) / 65536 * 65536 := by omega
      rw [if_neg (show ¬ (n + 65535) / 65536 * 65536 ≤ 512 by omega),
        if_neg (show ¬ (n + 65535) / 65536 * 65536 ≤ 1024 by omega),
        if_neg (show ¬ (n + 65535) / 65536 * 65536 ≤ 2048 by omega),
        if_neg (show ¬ (n + 65535) / 65536 * 65536 ≤ 4096 by omega),
        if_neg (show ¬ (n + 65535) / 65536 * 65536 ≤ 8192 by omega),
        if_neg (show ¬ (n + 65535) / 65536 * 65536 ≤ 16384 by omega),
        if_neg (show ¬ (n + 65535) / 65536 * 65536 ≤ 32768 by omega),
        if_neg (show ¬ (n + 65535) / 65536 * 65536 ≤ 65536 by omega),
        Nat.mod_eq_of_lt (by omega)]
      omega
    · intro b hb hnb
      fin_cases hb <;> exact absurd hnb (by omega)

/-- Witness for C7 at n = 100000 (past the largest bucket; the result is
131072, the next multiple of 65536). -/
theorem normalize_size_spec_witness :
    100000 + 65535 < 2 ^ 64 ∧
    (100000 ≤ normalize_size 100000 ∧
     normalize_size (normalize_size 100000) = normalize_size 100000 ∧
     (∀ b ∈ sizeBuckets, 100000 ≤ b →
       normalize_size 100000 ∈ sizeBuckets ∧ normalize_size 100000 ≤ b) ∧
     (65536 < 100000 →
       normalize_size 100000 % 65536 = 0 ∧
       normalize_size 100000 < 100000 + 65536)) :=
  ⟨by norm_num, normalize_size_spec 100000 (by norm_num)⟩

/-- C8: `create_config` on the normalizer built by `new` is pure and always
returns the one constant profile (so every call in a process yields the
identical cipher/extension/group/signature orderings); its first cipher
suite is 0x1301 (TLS_AES_128_GCM_SHA256), and its minimum protocol version
is strictly below its maximum. -/
theorem create_config_constant :
    TlsFingerprintNormalizer.new.create_config = Except.ok tor_browser_config ∧
    tor_browser_config.cipher_suites.head? = some 0x1301 ∧
    tor_browser_config.min_version.toNat <
      tor_browser_config.max_version.toNat :=
  ⟨rfl, rfl, by decide⟩

theorem hexVal_hexDigitChar {d : Nat} (h : d < 16) :
    hexVal (hexDigitChar d) = d := by
  interval_cases d <;> decide

theorem readHexAux_append (l₁ l₂ : List Char) (a : Nat) :
    readHexAux (l₁ ++ l₂) a = readHexAux l₂ (readHexAux l₁ a) := by
  induction l₁ generalizing a with
  | nil => rfl
  | cons c cs ih => simp [readHexAux, ih]

theorem readHexAux_toHexFuel (fuel : Nat) :
    ∀ n a, n < fuel →
      readHexAux (toHexFuel fuel n) a =
        a * 16 ^ (toHexFuel fuel n).length + n := by
  induction fuel with
  | zero => intro n a hn; exact absurd hn (by omega)
  | succ fuel ih =>
    intro n a hn
    by_cases h16 : n < 16
    · rw [toHexFuel, if_pos h16]
      simp only [readHexAux, List.length_singleton, pow_one]
      rw [hexVal_hexDigitChar h16]
      ring
    · rw [toHexFuel, if_neg h16]
      have hdiv : n / 16 < fuel := by omega
      rw [readHexAux_append, ih (n / 16) a hdiv]
      simp only [readHexAux]
      rw [hexVal_hexDigitChar (show n % 16 < 16 by omega)]
      have hlen : (toHexFuel fuel (n / 16) ++
          [hexDigitChar (n % 16)]).length =
          (toHexFuel fuel (n / 16)).length + 1 := by simp
      rw [hlen, pow_succ, Nat.mul_add, Nat.add_assoc, Nat.div_add_mod]
      congr 1
      ring

theorem readHexAux_replicate_zero (k : Nat) :
    readHexAux (List.replicate k '0') 0 = 0 := by
  induction k with
  | zero => rfl
  | succ k ih =>
    rw [List.replicate_succ]
    simpa [readHexAux, hexVal] using ih

theorem readHex_pad16_toHex (n : Nat) : readHex (pad16 (toHex n)) = n := by
  unfold readHex pad16
  rw [readHexAux_append, readHexAux_replicate_zero]
  have := readHexAux_toHexFuel (n + 1) n 0 (by omega)
  unfold toHex
  rw [this]
  simp

theorem generate_circuit_id_injective {t₁ t₂ : Nat}
    (h : generate_circuit_id t₁ = generate_circuit_id t₂) : t₁ = t₂ := by
  unfold generate_circuit_id at h
  have hdata : ("circuit_" ++ String.mk (pad16 (toHex t₁))).data =
      ("circuit_" ++ String.mk (pad16 (toHex t₂))).data := by rw [h]
  rw [String.data_append, String.data_append] at hdata
  have hpad : pad16 (toHex t₁) = pad16 (toHex t₂) :=
    List.append_cancel_left hdata
  have := readHex_pad16_toHex t₁
  rw [hpad, readHex_pad16_toHex t₂] at this
  exact this.symm

/-- C3 counterexample: two pipeline invocations that observe the same clock
reading (as concurrent calls within one nanosecond tick do) obtain the same
circuit identifier, so the identifiers of N = 2 invocations need not be
pairwise distinct. -/
theorem circuit_ids_claim_counterexample :
    circuitIdsAt [0, 0] =
      ["circuit_0000000000000000", "circuit_0000000000000000"] ∧
    ¬ (circuitIdsAt [0, 0]).Pairwise (fun a b => a ≠ b) := by
  refine ⟨by decide, ?_⟩
  intro hpw
  rw [show circuitIdsAt [0, 0] =
      ["circuit_0000000000000000", "circuit_0000000000000000"] from
    by decide] at hpw
  rw [List.pairwise_cons] at hpw
  exact hpw.1 _ (by decide) rfl

/-- C3 (amended): the circuit identifiers produced by any number of
`create_new_circuit` invocations are pairwise distinct whenever the
nanosecond clock values observed by those invocations are pairwise
distinct (the identifier is an injective rendering of the clock value). -/
theorem circuit_ids_distinct (ts : List Nat)
    (h : ts.Pairwise (fun a b => a ≠ b)) :
    (circuitIdsAt ts).Pairwise (fun a b => a ≠ b) := by
  unfold circuitIdsAt
  refine List.Pairwise.map _ ?_ h
  intro a b hne he
  exact hne (generate_circuit_id_injective he)

/-- Witness for C3 at the clock readings 0 and 1. -/
theorem circuit_ids_distinct_witness :
    ([0, 1] : List Nat).Pairwise (fun a b => a ≠ b) ∧
    (circuitIdsAt [0, 1]).Pairwise (fun a b => a ≠ b) :=
  ⟨by decide, circuit_ids_distinct [0, 1] (by decide)⟩

/-- C10 counterexample: a URL that begins with "https://" on which
`parse_url` does not succeed — the text after the last colon of the host
part is not a valid port, so the claim that every "https://" URL parses
successfully is false. -/
theorem parse_url_claim_counterexample :
    starts_with "https://example.com:x" "https://" = true ∧
    parse_url "https://example.com:x" =
      Except.error (NetworkError.InvalidUrl "Invalid port") :=
  ⟨rfl, rfl⟩

/-- C10 (amended): a URL not beginning with "https://" yields the
InvalidUrl error; a URL beginning with "https://" parses with the unstated
defaults — port 443 when the host part has no colon, path "/" when no
slash follows the host — succeeds whenever the segment after the last
colon of the host part is a valid u16 literal, and yields InvalidUrl
when that segment is not. -/
theorem parse_url_spec (url : String) :
    (¬ starts_with url "https://" = true →
      parse_url url = Except.error (NetworkError.InvalidUrl "Not HTTPS")) ∧
    (starts_with url "https://" = true →
      (List.findIdx? (fun c => c == '/') (without_scheme url) = none →
        (split_host_path (without_scheme url)).2 = ['/']) ∧
      ((split_host_port (split_host_path (without_scheme url)).1).2 =
          none →
        parse_url url = Except.ok
          { host :=
              String.mk (split_host_port
                (split_host_path (without_scheme url)).1).1,
            port := 443,
            path := String.mk (split_host_path (without_scheme url)).2 }) ∧
      (∀ ps p,
        (split_host_port (split_host_path (without_scheme url)).1).2 =
          some ps →
        parse_u16 ps = some p →
        parse_url url = Except.ok
          { host :=
              String.mk (split_host_port
                (split_host_path (without_scheme url)).1).1,
            port := p,
            path := String.mk (split_host_path (without_scheme url)).2 }) ∧
      (∀ ps,
        (split_host_port (split_host_path (without_scheme url)).1).2 =
          some ps →
        parse_u16 ps = none →
        parse_url url =
          Except.error (NetworkError.InvalidUrl "Invalid port"))) := by
  constructor
  · intro h
    unfold parse_url
    rw [if_neg h]
  · intro h
    refine ⟨?_, ?_, ?_, ?_⟩
    · intro hnone
      unfold split_host_path
      rw [hnone]
    · intro hnone
      unfold parse_url
      rw [if_pos h]
      simp only [hnone]
    · intro ps p hsome hp16
      unfold parse_url
      rw [if_pos h]
      simp only [hsome, hp16]
    · intro ps hsome hp16
      unfold parse_url
      rw [if_pos h]
      simp only [hsome, hp16]

/-- Witness for C10 at the three URLs of the source's unit tests: with an
explicit port, without one, and a non-https URL. -/
theorem parse_url_spec_witness :
    parse_url "https://example.com" =
      Except.ok { host := "example.com", port := 443, path := "/" } ∧
    parse_url "https://example.com:8443/path" =
      Except.ok { host := "example.com", port := 8443, path := "/path" } ∧
    parse_url "http://example.com" =
      Except.error (NetworkError.InvalidUrl "Not HTTPS") := by
  refine ⟨?_, ?_, ?_⟩
  · have h := ((parse_url_spec "https://example.com").2 rfl).2.1 rfl
    rw [h]
    rfl
  · have h := ((parse_url_spec "https://example.com:8443/path").2
      rfl).2.2.1 ['8', '4', '4', '3'] 8443 rfl rfl
    rw [h]
    rfl
  · exact (parse_url_spec "http://example.com").1 (by simp [starts_with])

/-- C2: a request whose URL does not start with "https://" returns the
ProtocolNotSupported error carrying the scheme part, and the state is
returned exactly unchanged: no jitter, no circuit creation (the tracked
circuit set is untouched), no header synthesis, no padding, no TLS work
and no transport step is performed. -/
theorem request_non_https (cfg : NetworkConfig) (env : Env) (st : NetState)
    (method url : String) (body : Option (List Nat))
    (h : ¬ starts_with url "https://" = true) :
    AnonymizedNetwork.request cfg env st method url body =
      Option.some (Except.error
        (NetworkError.ProtocolNotSupported (scheme_of url)), st) := by
  unfold AnonymizedNetwork.request
  rw [if_neg h]

/-- Witness for C2 at a plain-http URL: the error carries the scheme
"http" and the state is the untouched initial state. -/
theorem request_non_https_witness :
    ¬ starts_with "http://example.com" "https://" = true ∧
    scheme_of "http://example.com" = "http" ∧
    AnonymizedNetwork.request NetworkConfig.default
        { nanos := 0, uaChoice := 0, padRand := 0, timedOut := false }
        initState "GET" "http://example.com" Option.none =
      Option.some (Except.error (NetworkError.ProtocolNotSupported
        (scheme_of "http://example.com")), initState) :=
  ⟨by decide, by decide,
   request_non_https NetworkConfig.default
     { nanos := 0, uaChoice := 0, padRand := 0, timedOut := false }
     initState "GET" "http://example.com" Option.none (by decide)⟩

/-- C1: contrary to the claim, the request pipeline applies none of
`toOrderedList`, `stripDangerous`, `normalizeOrder` to the outgoing
headers: whatever a request returns, its trace contains no such step, and
every transport call receives the raw `generate` output unchanged. -/
theorem request_skips_header_sanitizers (cfg : NetworkConfig) (env : Env)
    (method url : String) (body : Option (List Nat))
    (out : Except NetworkError NetworkResponse × NetState)
    (h : AnonymizedNetwork.request cfg env initState method url body =
      Option.some out) :
    Step.stripDangerous ∉ out.2.trace ∧
    Step.normalizeOrder ∉ out.2.trace ∧
    Step.toOrderedList ∉ out.2.trace ∧
    (∀ hs, Step.transportCall hs ∈ out.2.trace →
      hs = generate env.uaChoice) := by
  unfold AnonymizedNetwork.request at h
  split at h
  · split at h
    · exact absurd h (by simp)
    · split at h
      · injection h with h2
        subst h2
        cases body <;> simp [initState, pad_trace]
      · injection h with h2
        subst h2
        cases body <;> simp [initState, pad_trace]
  · injection h with h2
    subst h2
    simp [initState]

/-- Witness for C1: a concrete successful request whose trace records the
jitter, circuit, generate, TLS, transport and response-sanitization steps
but no header-sanitization step. -/
theorem request_skips_header_sanitizers_witness :
    AnonymizedNetwork.request NetworkConfig.default
        { nanos := 0, uaChoice := 0, padRand := 0, timedOut := false }
        initState "GET" "https://example.com" Option.none =
      Option.some c1RequestOut ∧
    (Step.stripDangerous ∉ c1RequestOut.2.trace ∧
     Step.normalizeOrder ∉ c1RequestOut.2.trace ∧
     Step.toOrderedList ∉ c1RequestOut.2.trace ∧
     (∀ hs, Step.transportCall hs ∈ c1RequestOut.2.trace →
       hs = generate 0)) :=
  ⟨by decide,
   request_skips_header_sanitizers NetworkConfig.default
     { nanos := 0, uaChoice := 0, padRand := 0, timedOut := false }
     "GET" "https://example.com" Option.none c1RequestOut (by decide)⟩

end Forloop
